import Mathlib

/-!
Verification development for the RIA conversational-AI backend, centred on
`backend/controllers/webrtc_handler.py`.

The shallow embedding below translates, from the source:

* the VAD endpoint-detection state machine inside `MeetingStreamHandler.receive`
  (lines 294-385): hysteresis thresholds, cooldown handling, the segment ring
  buffer with its sample cap, the dynamic silence cutoff, end guard, the
  minimum-speech rejection and the two cut conditions;
* the turn-dispatch gate formed by the `_pause_in_progress` flag set in
  `receive` (lines 371-383) and cleared in the `finally` of `_handle_pause`
  (line 676);
* the control flow of `_handle_pause` (lines 473-676) over oracles for the
  external collaborators (STT, agent pipeline, short-reply, TTS);
* the exception structure of `receive` itself (lines 252-388): the debug-log
  block that runs before the `try`, and the `try/except` that returns the
  frame unchanged on any failure;
* the `SimpleDenoiser` (lines 35-159) over the real numbers: high-pass,
  pre-emphasis, Hann window, rfft/irfft as the standard DFT formulas, the
  EMA noise floors, the soft spectral mask with its linear attenuation floor,
  de-emphasis, soft limiter and int16 quantisation.

Machine floats are modelled exactly: millisecond counters are `ℕ`/`ℤ`,
energies are `ℚ` (the float RMS comparison `rms >= thr` is encoded as the
exact equivalent `thr^2 * n <= sum of squares` for nonnegative thresholds),
and the denoiser's floating-point arithmetic is idealised over `ℝ`.
-/

namespace RIA

/-! ## VAD state machine (`MeetingStreamHandler.receive`, lines 294-385) -/

/-- The three phases of the VAD state machine: `self._state` in the source,
one of `"IDLE" | "RECORDING" | "COOLDOWN"` (line 198). -/
inductive VadPhase
  | idle
  | recording
  | cooldown
deriving DecidableEq, Repr

/-- The tunables read in `__init__` (lines 199-218) together with the ring
cap (`_ring_max_samples`, line 181).  Defaults are the hard-coded env-var
default strings. -/
structure VadConfig where
  frameMs : ℕ
  cooldownMs : ℕ
  minSilenceMs : ℕ
  maxSilenceMs : ℕ
  endGuardFrames : ℕ
  minSpeechMs : ℕ
  maxUttMs : ℕ
  ringMaxSamples : ℕ
  rmsStart : ℚ
  rmsStop : ℚ
deriving DecidableEq, Repr

/-- Default configuration: frame 20 ms, cooldown 450 ms, silence bounds
600/1400 ms, end guard 4 frames, min speech 650 ms, max utterance 15000 ms,
ring cap 1 440 000 samples (30 s at 48 kHz), start RMS 600, stop RMS 420. -/
def defaultVadConfig : VadConfig :=
  { frameMs := 20, cooldownMs := 450, minSilenceMs := 600, maxSilenceMs := 1400,
    endGuardFrames := 4, minSpeechMs := 650, maxUttMs := 15000,
    ringMaxSamples := 1440000, rmsStart := 600, rmsStop := 420 }

/-- The mutable per-stream VAD state: `_state`, `_cooldown_left`,
`_speech_ms`, `_silence_ms`, `_utt_ms` (lines 198-223) plus the segment ring
buffer `_ring` (line 180), one entry per buffered frame. `_cooldown_left` is
an integer because the decrement loop lets it go negative (line 304). -/
structure VadState where
  phase : VadPhase
  cooldownLeft : ℤ
  speechMs : ℕ
  silenceMs : ℕ
  uttMs : ℕ
  ring : List (List ℤ)
deriving DecidableEq, Repr

/-- The state a fresh handler starts in (`__init__`). -/
def initVadState : VadState :=
  { phase := VadPhase.idle, cooldownLeft := 0, speechMs := 0, silenceMs := 0,
    uttMs := 0, ring := [] }

/-- Sum of squared samples of a frame, over `ℚ`. -/
def sumSq (f : List ℤ) : ℚ :=
  (f.map fun x : ℤ => ((x : ℚ)) ^ 2).sum

/-- Whether `rms >= thr` holds for the frame, where
`rms = sqrt(mean(square(pcm)))` (line 296).  Encoded without square roots:
for an empty frame the mean is NaN and every comparison is false; a
nonpositive threshold always compares true against the nonnegative RMS;
otherwise `rms >= thr` iff `thr^2 * len <= sum of squares`. -/
def voicedAt (thr : ℚ) (pcm : List ℤ) : Bool :=
  if pcm.isEmpty then false
  else if thr ≤ 0 then true
  else decide (thr ^ 2 * (pcm.length : ℚ) ≤ sumSq pcm)

/-- Voicing decision while RECORDING: the lower stop threshold (line 300). -/
def recVoiced (cfg : VadConfig) (pcm : List ℤ) : Bool :=
  voicedAt cfg.rmsStop pcm

/-- Total number of buffered samples in the ring (line 335). -/
def ringTotal (l : List (List ℤ)) : ℕ :=
  (l.map List.length).sum

/-- The ring-cap eviction loop (lines 336-337): pop oldest frames while the
sample total exceeds the cap and the ring is nonempty. -/
def evictRing (maxS : ℕ) : List (List ℤ) → List (List ℤ)
  | [] => []
  | h :: t => if ringTotal (h :: t) ≤ maxS then h :: t else evictRing maxS t

/-- The dynamic silence cutoff (lines 346-349):
`max(min_silence_ms, min(max_silence_ms, int(0.22 * utt_ms)))`.
`int(0.22 * utt_ms)` is modelled exactly as `(22 * utt) / 100` in `ℕ`:
the double `0.22` exceeds `22/100` by under `2^-54` relative, so for every
millisecond count reachable here the truncated float product equals the
rational floor. -/
def dynCutoff (cfg : VadConfig) (utt : ℕ) : ℕ :=
  max cfg.minSilenceMs (min cfg.maxSilenceMs ((22 * utt) / 100))

/-- The cut-for-silence condition (lines 352-358): trailing silence has
reached the dynamic cutoff and also spans at least `end_guard_frames`
frames. -/
def cutForSilence (cfg : VadConfig) (sil utt : ℕ) : Bool :=
  decide (dynCutoff cfg utt ≤ sil) && decide (cfg.endGuardFrames * cfg.frameMs ≤ sil)

/-- The dynamic cutoff as the spec words it:
`clamp(0.22 * utterance_duration_ms, min_silence_ms, max_silence_ms)`,
with the product truncated to whole milliseconds as `int()` does. -/
def specDynCutoff (cfg : VadConfig) (utt : ℕ) : ℕ :=
  max cfg.minSilenceMs (min cfg.maxSilenceMs ⌊(0.22 : ℚ) * (utt : ℚ)⌋₊)

/-- What the recording block (lines 329-383) produced for the frame. -/
inductive VadAction
  | noCut
  | rejected
  | cutTurn (ring : List (List ℤ))
deriving DecidableEq, Repr

/-- The state after the minimum-speech rejection (lines 363-369): ring
cleared, COOLDOWN entered, all per-utterance counters zeroed. -/
def rejectState (cfg : VadConfig) : VadState :=
  { phase := VadPhase.cooldown, cooldownLeft := (cfg.cooldownMs : ℤ),
    speechMs := 0, silenceMs := 0, uttMs := 0, ring := [] }

/-- The RECORDING block of `receive` (lines 329-383): append the frame,
apply the ring cap, update the counters, evaluate the two cut conditions;
on a cut either reject the too-short segment or mark a turn cut, entering
COOLDOWN in both cases.  `voiced` is the hysteresis decision computed at
line 297-300 (it uses the start threshold when this frame entered RECORDING
from IDLE in the same call). -/
def recordingStep (cfg : VadConfig) (voiced : Bool) (st : VadState) (pcm : List ℤ) :
    VadState × VadAction :=
  let ring1 := evictRing cfg.ringMaxSamples (st.ring ++ [pcm])
  let utt1 := st.uttMs + cfg.frameMs
  let speech1 := if voiced then st.speechMs + cfg.frameMs else st.speechMs
  let sil1 := if voiced then 0 else st.silenceMs + cfg.frameMs
  if cutForSilence cfg sil1 utt1 || decide (cfg.maxUttMs ≤ utt1) then
    if speech1 < cfg.minSpeechMs then (rejectState cfg, VadAction.rejected)
    else ({ phase := VadPhase.cooldown, cooldownLeft := (cfg.cooldownMs : ℤ),
            speechMs := speech1, silenceMs := sil1, uttMs := utt1, ring := ring1 },
          VadAction.cutTurn ring1)
  else ({ st with ring := ring1, uttMs := utt1, speechMs := speech1, silenceMs := sil1 },
        VadAction.noCut)

/-- Everything one `receive` call emits besides the returned frame: the
barge-in INTERRUPT_AUDIO message (lines 310-318) and the recording-block
outcome. -/
structure VadEvent where
  interrupt : Bool
  action : VadAction
deriving DecidableEq, Repr

/-- One frame through the VAD state machine of `receive` (lines 294-385):
compute the hysteresis voicing decision, update the cooldown (lines
303-306), handle IDLE (lines 308-327: barge-in, counter reset and ring
clear on speech start; discard otherwise), then run the RECORDING block. -/
def vadStep (cfg : VadConfig) (st : VadState) (pcm : List ℤ) : VadState × VadEvent :=
  let voiced := if st.phase = VadPhase.recording then recVoiced cfg pcm
                else voicedAt cfg.rmsStart pcm
  let st1 :=
    if st.phase = VadPhase.cooldown then
      let cl := st.cooldownLeft - (cfg.frameMs : ℤ)
      if cl ≤ 0 then { st with phase := VadPhase.idle, cooldownLeft := cl }
      else { st with cooldownLeft := cl }
    else st
  let p : VadState × Bool :=
    if st1.phase = VadPhase.idle then
      if voiced then
        ({ st1 with phase := VadPhase.recording, speechMs := 0, silenceMs := 0,
                    uttMs := 0, ring := [] }, true)
      else (st1, false)
    else (st1, false)
  if p.1.phase = VadPhase.recording then
    let r := recordingStep cfg voiced p.1 pcm
    (r.1, { interrupt := p.2, action := r.2 })
  else
    (p.1, { interrupt := p.2, action := VadAction.noCut })

/-- Fold a frame sequence through the state machine, keeping only the state. -/
def runFrames (cfg : VadConfig) (st : VadState) (fs : List (List ℤ)) : VadState :=
  fs.foldl (fun s f => (vadStep cfg s f).1) st

/-- The state just after the IDLE-to-RECORDING reset (lines 320-325),
before the entering frame is processed by the recording block. -/
def recStart : VadState :=
  { phase := VadPhase.recording, cooldownLeft := 0, speechMs := 0, silenceMs := 0,
    uttMs := 0, ring := [] }

/-- `_write_wav_from_ring` (lines 453-469): `None` on an empty ring,
otherwise the concatenation of the buffered frames in arrival order (the
payload written to the temporary WAV). -/
def writeWavFromRing (ring : List (List ℤ)) : Option (List ℤ) :=
  if ring.isEmpty then none else some ring.flatten

/-! ## Turn-dispatch gate (`_pause_in_progress`)

`receive` schedules `_handle_pause` only when `self._pause_in_progress` is
false, setting the flag before scheduling (lines 371-376); the flag is
cleared in the `finally` of `_handle_pause` (line 676).  The events below
are the two points where the flag is touched: a qualifying cut in `receive`
(`GateEv.cut`) and the completion of a `_handle_pause` run (`GateEv.done`).
The counters record how many cuts were handed to `_handle_pause` and how
many were skipped because the flag was already set. -/

inductive GateEv
  | cut
  | done
deriving DecidableEq, Repr

/-- Gate state: `inFlight` counts scheduled-but-unfinished `_handle_pause`
runs (the flag is `inFlight ≠ 0`); `dispatched`/`dropped` count cut
outcomes. -/
structure GateSt where
  inFlight : ℕ
  dispatched : ℕ
  dropped : ℕ
deriving DecidableEq, Repr

/-- Fresh handler: flag clear, no turns yet (line 195). -/
def gateInit : GateSt :=
  { inFlight := 0, dispatched := 0, dropped := 0 }

/-- One gate event.  A cut with the flag clear sets the flag and schedules
`_handle_pause` (lines 371-376); a cut with the flag set falls through —
no task is scheduled for that segment (line 371's guard).  Completion of a
`_handle_pause` clears the flag (line 676). -/
def gateStep (s : GateSt) : GateEv → GateSt
  | GateEv.cut =>
      if s.inFlight = 0 then
        { inFlight := 1, dispatched := s.dispatched + 1, dropped := s.dropped }
      else { s with dropped := s.dropped + 1 }
  | GateEv.done => { s with inFlight := s.inFlight - 1 }

/-- Fold an event sequence through the gate. -/
def gateRun (evs : List GateEv) : GateSt :=
  evs.foldl gateStep gateInit

/-! ## `_handle_pause` control flow (lines 473-676)

The external collaborators are oracles: each is the value the call returned,
or the exception it raised (`Except.error`).  The model follows the source's
`try`/`except` structure: the outer handler (lines 659-669) converts any
uncaught failure into the `{"error": "processing_failed"}` event; the agent
block (lines 565-599) and the TTS block (lines 626-647) have their own
handlers.  The Python local `optional_result` is bound only by the
successful `send_api_request` call (line 584); referencing it unbound at
line 656 raises `NameError`, which the model represents explicitly. -/

/-- A successful transcription: `(lang_line, code, orig, en_text)` as
returned by `self.transcriber.transcribe` (line 500). -/
structure SttOk where
  langLine : String
  code : String
  orig : String
  en : String
deriving DecidableEq, Repr

/-- The outbound JSON payloads `_handle_pause` can emit, in order. -/
inductive PauseEvent
  | transcriptionMsg (code langLine orig en : String)
  | emptyShortCircuit (code langLine orig en : String)
  | finalReply (reply : String) (audioB64 : Option String) (optionalResponse : String)
  | errorNotice (detail : String)
deriving DecidableEq, Repr

/-- Oracle for one `_handle_pause` run: what each collaborator call would
return or raise, plus the handler configuration it reads. -/
structure PauseEnv where
  wavWritten : Bool
  durMs : ℕ
  minSpeechMs : ℕ
  stt : Except String SttOk
  refineWithLlm : Bool
  llmRefine : Except String (List String)
  heuristicsOf : String → List String
  promptOf : String → List String → String
  agent : Except String (Option String × String)
  shortReplyOf : String → String
  ttsConfigured : Bool
  tts : Except String (Option String)

/-- Python's `a or b` on strings. -/
def pyOr (a b : String) : String :=
  if a = "" then b else a

/-- ASCII whitespace, as Python's `str.strip` removes by default. -/
def isPySpace (c : Char) : Bool :=
  c = ' ' || c = '\t' || c = '\n' || c = '\r'

/-- Python's `str.strip()`: drop leading and trailing whitespace. -/
def pyStrip (s : String) : String :=
  (((s.toList.dropWhile isPySpace).reverse.dropWhile isPySpace).reverse).asString

/-- `_handle_pause` (lines 473-676) as a function from the collaborator
oracle to the list of outbound events.  `agent = .ok (t, o)` models the
COAST block reaching line 584 and extracting `agent_text = t`,
`optional_result = o`; `agent = .error e` models any raise inside lines
565-595, leaving both locals unbound.  `short_reply` and the memory calls
are modelled total (a `save_session_memory` failure is caught at line 619
and changes no event). -/
def handlePause (env : PauseEnv) : List PauseEvent :=
  if env.wavWritten = false then []
  else if env.durMs < env.minSpeechMs then []
  else
    match env.stt with
    | Except.error e => [PauseEvent.errorNotice e]
    | Except.ok r =>
      let ev1 := PauseEvent.transcriptionMsg r.code r.langLine r.orig r.en
      let usable := pyStrip (pyOr r.en (pyOr r.orig ""))
      if usable = "" then [ev1, PauseEvent.emptyShortCircuit r.code r.langLine r.orig r.en]
      else
        let seeds := env.heuristicsOf usable
        match (if env.refineWithLlm then env.llmRefine else Except.ok seeds) with
        | Except.error e => [ev1, PauseEvent.errorNotice e]
        | Except.ok items =>
          let prompt := env.promptOf usable items
          let agentText : Option String :=
            match env.agent with
            | Except.ok (t, _) => t
            | Except.error _ => none
          let optionalResult : Option String :=
            match env.agent with
            | Except.ok (_, o) => some o
            | Except.error _ => none
          let reply :=
            match agentText with
            | some t => if pyStrip t ≠ "" then env.shortReplyOf t else env.shortReplyOf prompt
            | none => env.shortReplyOf prompt
          let audio : Option String :=
            if env.ttsConfigured ∧ reply ≠ "" then
              match env.tts with
              | Except.ok b => b
              | Except.error _ => none
            else none
          match optionalResult with
          | none => [ev1, PauseEvent.errorNotice ("name 'optional_result' is not defined")]
          | some o => [ev1, PauseEvent.finalReply reply audio o]

/-! ## `receive` exception structure (lines 252-388)

The method body is: store `_last_frame`; run the debug-log block (lines
259-266), which unpacks the frame *outside* the `try` whenever
`RTC_RECV_LOG_EVERY` is nonzero and the counter hits the interval; then the
`try` (lines 268-385), whose `except` (lines 386-388) logs and returns the
frame unchanged.  A frame is a Python value: a 2-tuple (whose payload may
be `None`, a well-formed sample array, or an object on which
normalization raises), or a non-pair on which tuple unpacking raises. -/

/-- The pcm half of a frame: well-formed samples, or a payload on which
`np.asarray`/`astype`/reshape raises (line 276-287). -/
inductive PyPcm
  | wellFormed (samples : List ℤ)
  | malformed (msg : String)
deriving DecidableEq, Repr

/-- An incoming frame object: `(ts, pcm)` or something unpacking chokes on. -/
inductive PyFrame
  | pair (ts : Option ℤ) (pcm : Option PyPcm)
  | notAPair
deriving DecidableEq, Repr

/-- Handler state relevant to `receive`: the recv counter (line 186), the
sample rate (line 182, updated at line 271) and the VAD state. -/
structure RecvState where
  recvCount : ℕ
  sr : ℕ
  vad : VadState
deriving DecidableEq, Repr

/-- Configuration for `receive`: `RTC_RECV_LOG_EVERY` (default 0, line 187)
and the VAD tunables.  The optional denoiser is disabled by default
(`USE_SIMPLE_DENOISER` defaults to "0", lines 233-241) and is not part of
this model. -/
structure RecvConfig where
  recvLogEvery : ℕ
  vadCfg : VadConfig

/-- The body of the `try` (lines 268-385): unpack, update the sample rate,
return early on a `None` payload (line 273-274), raise on a malformed
payload, otherwise run the VAD state machine and return the frame.
An `Except.error` is an exception reaching the `except` clause. -/
def receiveTryBody (cfg : RecvConfig) (st : RecvState) (f : PyFrame) :
    Except String (RecvState × PyFrame) :=
  match f with
  | PyFrame.notAPair => Except.error ("cannot unpack non-iterable object")
  | PyFrame.pair ts pcm =>
    let st1 := match ts with
      | some t => { st with sr := t.toNat }
      | none => st
    match pcm with
    | none => Except.ok (st1, f)
    | some (PyPcm.malformed m) => Except.error m
    | some (PyPcm.wellFormed samples) =>
      Except.ok ({ st1 with vad := (vadStep cfg.vadCfg st1.vad samples).1 }, f)

/-- `receive` (lines 252-388).  The debug-log block runs before the `try`:
with a nonzero interval it increments the counter and, on a hit, unpacks
the frame — an exception there propagates to the caller.  Inside the
`try`, any failure is caught and the frame is returned unmodified (line
386-388); the model returns the pre-call state there, which the claim's
statements never inspect. -/
def receiveModel (cfg : RecvConfig) (st : RecvState) (f : PyFrame) :
    Except String (RecvState × PyFrame) :=
  let cnt := if cfg.recvLogEvery ≠ 0 then st.recvCount + 1 else st.recvCount
  let st0 := { st with recvCount := cnt }
  let logHit := cfg.recvLogEvery ≠ 0 ∧ cnt % cfg.recvLogEvery = 0
  if logHit ∧ f = PyFrame.notAPair then Except.error ("cannot unpack non-iterable object")
  else
    match receiveTryBody cfg st0 f with
    | Except.error _ => Except.ok (st0, f)
    | Except.ok r => Except.ok r

/-! ## `SimpleDenoiser` (lines 35-159), over the real numbers

The per-frame pipeline `process_20ms_int16` (lines 97-159): high-pass and
pre-emphasis recursions, Hann windowing, `np.fft.rfft`, power spectrum, the
two EMA noise floors, the soft spectral mask floored at `atten_lin`,
`np.fft.irfft`, de-emphasis, the soft peak limiter and int16 quantisation.
Floating point is idealised as `ℝ`; the FFTs are the textbook DFT formulas
numpy implements. -/

/-- Denoiser state: the constructor constants (lines 56-75) and the
mutable per-stream recursive state (lines 66-69). -/
structure SimpleDenoiser where
  sr : ℕ
  N : ℕ
  hpAlpha : ℝ
  preEmph : ℝ
  emaAlphaRms : ℝ
  emaAlphaPsd : ℝ
  floorBoost : ℝ
  maskRelax : ℝ
  attenLin : ℝ
  eps : ℝ
  win : List ℝ
  x1 : ℝ
  peX1 : ℝ
  rmsFloor : Option ℝ
  psdFloor : Option (List ℝ)

/-- `np.hanning M`: `0.5 - 0.5*cos(2*pi*n/(M-1))` for `n = 0..M-1`, with
numpy's special case returning `[1]` for `M = 1`. -/
noncomputable def hanning (M : ℕ) : List ℝ :=
  if M = 1 then [1]
  else List.ofFn (n := M) fun i =>
    1 / 2 - 1 / 2 * Real.cos (2 * Real.pi * (i : ℝ) / ((M : ℝ) - 1))

/-- The constructor `SimpleDenoiser.__init__` (lines 44-75):
`N = sr * frame_ms / 1000` (integer division),
`hp_alpha = exp(-2*pi*hp_cut_hz/sr)`, `atten_lin = 10^(-max_atten_db/20)`,
Hann window, `eps = 1e-8`, zeroed filter state, floors unset. -/
noncomputable def mkSimpleDenoiser (sr frameMs : ℕ)
    (hpCutHz preEmph emaAlphaRms emaAlphaPsd floorBoost maskRelax maxAttenDb : ℝ) :
    SimpleDenoiser :=
  { sr := sr, N := sr * frameMs / 1000,
    hpAlpha := Real.exp (-(2 * Real.pi * hpCutHz) / (sr : ℝ)),
    preEmph := preEmph, emaAlphaRms := emaAlphaRms, emaAlphaPsd := emaAlphaPsd,
    floorBoost := floorBoost, maskRelax := maskRelax,
    attenLin := Real.rpow 10 (-maxAttenDb / 20),
    eps := 1 / 100000000,
    win := hanning (sr * frameMs / 1000),
    x1 := 0, peX1 := 0, rmsFloor := none, psdFloor := none }

/-- The denoiser as constructed by `MeetingStreamHandler.__init__`
(line 238) with the default sub-parameters (lines 44-54). -/
noncomputable def defaultDenoiser (sr frameMs : ℕ) : SimpleDenoiser :=
  mkSimpleDenoiser sr frameMs 120 0.97 0.95 0.98 1.8 0.6 18

/-- The one-pole high-pass loop (lines 82-86): returns the filtered signal
and the final integrator state. -/
def hpLoop (a : ℝ) : ℝ → List ℝ → List ℝ × ℝ
  | xi, [] => ([], xi)
  | xi, x :: xs =>
    let xin := a * xi + (1 - a) * x
    let r := hpLoop a xin xs
    ((x - xin) :: r.1, r.2)

/-- The pre-emphasis first difference (lines 89-93): `z[i] = y[i] - pe*y[i-1]`
with the carried previous sample for `i = 0`. -/
def preEmphList (pe : ℝ) : ℝ → List ℝ → List ℝ
  | _, [] => []
  | prev, y :: ys => (y - pe * prev) :: preEmphList pe y ys

/-- The de-emphasis recursion (lines 146-151): `out[i] = y[i] + a*out[i-1]`
starting from 0. -/
def deEmphList (a : ℝ) : ℝ → List ℝ → List ℝ
  | _, [] => []
  | prev, y :: ys =>
    let d := y + a * prev
    d :: deEmphList a d ys

/-- `np.fft.rfft` of a length-`N` real signal: the `N/2+1` bins
`X_k = sum_j x_j * exp(-2*pi*i*j*k/N)`. -/
noncomputable def rfftBins (x : List ℝ) (N : ℕ) : List ℂ :=
  List.ofFn (n := N / 2 + 1) fun k =>
    ∑ j ∈ Finset.range N,
      ((x.getD j 0 : ℝ) : ℂ) *
        Complex.exp (-(2 * (Real.pi : ℂ) * Complex.I * (j : ℕ) * ((k : ℕ) : ℂ)) / (N : ℂ))

/-- The length-`N` spectrum `np.fft.irfft` reconstructs from a half
spectrum: bins above `N/2` are the conjugates of their mirror bins. -/
noncomputable def fullSpec (Y : List ℂ) (N k : ℕ) : ℂ :=
  if k ≤ N / 2 then Y.getD k 0 else (starRingEnd ℂ) (Y.getD (N - k) 0)

/-- `np.fft.irfft Y n=N`: the real inverse DFT of the Hermitian extension. -/
noncomputable def irfft (Y : List ℂ) (N : ℕ) : List ℝ :=
  List.ofFn (n := N) fun j =>
    (1 / (N : ℝ)) *
      (∑ k ∈ Finset.range N,
        fullSpec Y N k *
          Complex.exp ((2 * (Real.pi : ℂ) * Complex.I * ((j : ℕ) : ℂ) * (k : ℂ)) / (N : ℂ))).re

/-- The windowed, pre-emphasised, high-passed frame (lines 106-109). -/
noncomputable def windowedFrame (st : SimpleDenoiser) (pcm : List ℤ) : List ℝ :=
  List.zipWith (· * ·)
    (preEmphList st.preEmph st.peX1 (hpLoop st.hpAlpha st.x1 (pcm.map Int.cast)).1)
    st.win

/-- The frame's half spectrum `X` (line 110). -/
noncomputable def spectrumOf (st : SimpleDenoiser) (pcm : List ℤ) : List ℂ :=
  rfftBins (windowedFrame st pcm) st.N

/-- The power spectrum `psd = |X|^2` (lines 111-112). -/
noncomputable def psdOf (st : SimpleDenoiser) (pcm : List ℤ) : List ℝ :=
  (spectrumOf st pcm).map fun c => Complex.abs c ^ 2

/-- The per-bin EMA floor after this frame's update (lines 124-130): the
first frame copies the psd, later frames blend with `ema_alpha_psd`. -/
def psdFloorUpdated (st : SimpleDenoiser) (psd : List ℝ) : List ℝ :=
  match st.psdFloor with
  | none => psd
  | some old => List.zipWith (fun o p => st.emaAlphaPsd * o + (1 - st.emaAlphaPsd) * p) old psd

/-- The scalar RMS floor after this frame's update (lines 114-122). -/
noncomputable def rmsFloorUpdated (st : SimpleDenoiser) (psd : List ℝ) : ℝ :=
  let curRms := Real.sqrt (psd.sum / (psd.length : ℝ) + st.eps)
  match st.rmsFloor with
  | none => curRms
  | some old => st.emaAlphaRms * old + (1 - st.emaAlphaRms) * curRms

/-- The soft spectral mask (lines 133-139): per bin,
`ratio = psd / (floor_boost*(psd_floor+eps) + eps)`,
`(ratio/(ratio+1))^mask_relax`, floored at `atten_lin`. -/
noncomputable def maskOf (st : SimpleDenoiser) (pcm : List ℤ) : List ℝ :=
  let psd := psdOf st pcm
  List.zipWith
    (fun p f =>
      max (Real.rpow ((p / (st.floorBoost * (f + st.eps) + st.eps)) /
                      (p / (st.floorBoost * (f + st.eps) + st.eps) + 1)) st.maskRelax)
        st.attenLin)
    psd (psdFloorUpdated st psd)

/-- The masked spectrum `Y = X * mask` (line 142). -/
noncomputable def maskedSpec (st : SimpleDenoiser) (pcm : List ℤ) : List ℂ :=
  List.zipWith (fun X m => X * ((m : ℝ) : ℂ)) (spectrumOf st pcm) (maskOf st pcm)

/-- The soft peak limiter (lines 153-156): scale the frame down when
`max |out| + eps` exceeds the 16-bit ceiling. -/
noncomputable def limiter (epsv : ℝ) (out : List ℝ) : List ℝ :=
  let peak := (out.map abs).foldr max 0 + epsv
  if 32767 < peak then out.map fun v => v * (32767 / peak) else out

/-- Truncation toward zero, the behaviour of `astype(np.int16)` on floats. -/
noncomputable def trunc16 (r : ℝ) : ℤ :=
  if 0 ≤ r then ⌊r⌋ else -⌊-r⌋

/-- `np.clip(out, -32767, 32767).astype(np.int16)` (line 159). -/
noncomputable def quantize16 (out : List ℝ) : List ℤ :=
  out.map fun v => trunc16 (min 32767 (max (-32767) v))

/-- `process_20ms_int16` (lines 97-159): the updated state and the output
int16 frame. -/
noncomputable def process20msInt16 (st : SimpleDenoiser) (pcm : List ℤ) :
    SimpleDenoiser × List ℤ :=
  let hp := hpLoop st.hpAlpha st.x1 (pcm.map Int.cast)
  let psd := psdOf st pcm
  ({ st with
      x1 := hp.2,
      peX1 := hp.1.getLastD st.peX1,
      rmsFloor := some (rmsFloorUpdated st psd),
      psdFloor := some (psdFloorUpdated st psd) },
   quantize16 (limiter st.eps (deEmphList st.preEmph 0 (irfft (maskedSpec st pcm) st.N))))

/-- Energy of an int16 frame: the sum of squared samples. -/
def energyOf (xs : List ℤ) : ℝ :=
  (xs.map fun x => ((x : ℝ)) ^ 2).sum

/-- A small concrete denoiser state (two spectral bins, fresh floors,
linear attenuation floor 1/2) used to exercise the mask theorems on a
concrete input. -/
noncomputable def st0Denoiser : SimpleDenoiser :=
  { sr := 100, N := 2, hpAlpha := 0, preEmph := 0, emaAlphaRms := 0, emaAlphaPsd := 0,
    floorBoost := 1, maskRelax := 1, attenLin := 1 / 2, eps := 0, win := [1, 1],
    x1 := 0, peX1 := 0, rmsFloor := none, psdFloor := none }

/-! ## Helper lemmas about the VAD step -/

theorem ringTotal_append (l1 l2 : List (List ℤ)) :
    ringTotal (l1 ++ l2) = ringTotal l1 + ringTotal l2 := by
  simp [ringTotal]

theorem runFrames_cons (cfg : VadConfig) (st : VadState) (f : List ℤ) (fs : List (List ℤ)) :
    runFrames cfg st (f :: fs) = runFrames cfg (vadStep cfg st f).1 fs := rfl

theorem evictRing_of_le (maxS : ℕ) (l : List (List ℤ)) (h : ringTotal l ≤ maxS) :
    evictRing maxS l = l := by
  cases l with
  | nil => rfl
  | cons a t => simp [evictRing, h]

theorem vadStep_recording_eq (cfg : VadConfig) (st : VadState) (pcm : List ℤ)
    (h : st.phase = VadPhase.recording) :
    vadStep cfg st pcm =
      ((recordingStep cfg (recVoiced cfg pcm) st pcm).1,
        { interrupt := false, action := (recordingStep cfg (recVoiced cfg pcm) st pcm).2 }) := by
  simp [vadStep, h]

theorem vadStep_idle_unvoiced (cfg : VadConfig) (st : VadState) (pcm : List ℤ)
    (h : st.phase = VadPhase.idle) (hv : voicedAt cfg.rmsStart pcm = false) :
    vadStep cfg st pcm = (st, { interrupt := false, action := VadAction.noCut }) := by
  simp [vadStep, h, hv]

theorem vadStep_idle_voiced (cfg : VadConfig) (st : VadState) (pcm : List ℤ)
    (h : st.phase = VadPhase.idle) (hv : voicedAt cfg.rmsStart pcm = true) :
    vadStep cfg st pcm =
      ((recordingStep cfg true
          { st with phase := VadPhase.recording, speechMs := 0, silenceMs := 0,
                    uttMs := 0, ring := [] } pcm).1,
       { interrupt := true,
         action := (recordingStep cfg true
          { st with phase := VadPhase.recording, speechMs := 0, silenceMs := 0,
                    uttMs := 0, ring := [] } pcm).2 }) := by
  simp [vadStep, h, hv]

theorem sumSq_nonneg (f : List ℤ) : 0 ≤ sumSq f := by
  induction f with
  | nil => simp [sumSq]
  | cons a t ih =>
    have ha : (0 : ℚ) ≤ ((a : ℚ)) ^ 2 := sq_nonneg _
    simp only [sumSq, List.map_cons, List.sum_cons] at ih ⊢
    linarith

/-- Evaluating `voicedAt` on a single-sample frame with a positive
threshold. -/
theorem voicedAt_single (thr : ℚ) (c : ℤ) (h0 : 0 < thr) :
    voicedAt thr [c] = decide (thr ^ 2 ≤ ((c : ℚ)) ^ 2) := by
  unfold voicedAt
  simp [h0.not_le, sumSq]

theorem vadStep_cooldown_pending (cfg : VadConfig) (st : VadState) (pcm : List ℤ)
    (h : st.phase = VadPhase.cooldown) (hc : (cfg.frameMs : ℤ) < st.cooldownLeft) :
    vadStep cfg st pcm =
      ({ st with cooldownLeft := st.cooldownLeft - (cfg.frameMs : ℤ) },
       { interrupt := false, action := VadAction.noCut }) := by
  have h1 : ¬ (st.cooldownLeft - (cfg.frameMs : ℤ) ≤ 0) := by omega
  simp [vadStep, h, h1]

theorem vadStep_cooldown_elapsed (cfg : VadConfig) (st : VadState) (pcm : List ℤ)
    (h : st.phase = VadPhase.cooldown) (hc : st.cooldownLeft ≤ (cfg.frameMs : ℤ)) :
    vadStep cfg st pcm =
      vadStep cfg
        { st with phase := VadPhase.idle,
                  cooldownLeft := st.cooldownLeft - (cfg.frameMs : ℤ) } pcm := by
  have h1 : st.cooldownLeft - (cfg.frameMs : ℤ) ≤ 0 := by omega
  simp [vadStep, h, h1]

/-! ## C1 — turn dispatch while a turn is in flight -/

theorem gateRun_inFlight_le_aux (evs : List GateEv) (s : GateSt) (h : s.inFlight ≤ 1) :
    (evs.foldl gateStep s).inFlight ≤ 1 := by
  induction evs generalizing s with
  | nil => simpa using h
  | cons e t ih =>
    refine ih _ ?_
    cases e with
    | cut =>
      by_cases h0 : s.inFlight = 0
      · simp [gateStep, h0]
      · simp [gateStep, h0]
        omega
    | done =>
      simp [gateStep]
      omega

/-- C1 (counterexample): two cuts in immediate succession on one stream.
The first sets `_pause_in_progress` and schedules `_handle_pause`
(lines 371-376); the second arrives while that turn is still in flight, the
guard at line 371 is false, and no `_handle_pause` is scheduled for it —
the second cut's turn is dropped, contradicting the claim that it is queued
and never dropped. -/
theorem c1_counterexample :
    (gateRun [GateEv.cut, GateEv.cut]).dropped = 1 ∧
    (gateRun [GateEv.cut, GateEv.cut]).dispatched = 1 ∧
    (gateRun [GateEv.cut, GateEv.cut]).inFlight = 1 := by
  decide

/-- C1 (amended): turn-processing executions never overlap — after any
event sequence at most one `_handle_pause` is in flight — but a cut that
arrives while one is in flight is dropped (its segment is never handed to
`_handle_pause`), not queued. -/
theorem c1_amended (evs : List GateEv) (s : GateSt) (hs : s.inFlight ≠ 0) :
    (gateRun evs).inFlight ≤ 1 ∧
    gateStep s GateEv.cut = { s with dropped := s.dropped + 1 } := by
  refine ⟨gateRun_inFlight_le_aux evs gateInit (by decide), ?_⟩
  simp [gateStep, hs]

/-- C1 (witness): the amended theorem applied to a concrete trace and a
concrete in-flight gate state. -/
theorem c1_amended_witness :
    (gateRun [GateEv.cut, GateEv.done, GateEv.cut]).inFlight ≤ 1 ∧
    gateStep { inFlight := 1, dispatched := 1, dropped := 0 } GateEv.cut
      = { inFlight := 1, dispatched := 1, dropped := 1 } :=
  c1_amended [GateEv.cut, GateEv.done, GateEv.cut]
    { inFlight := 1, dispatched := 1, dropped := 0 } (by decide)

/-! ## C2 — graceful degradation inside one turn -/

/-- C2 (code bug): a turn in which transcription succeeds with a non-empty
text, the COAST agent block raises (say `get_agent_config` fails), and the
fallback reply and TTS both succeed.  The code computes the fallback reply
(lines 601-614) and the TTS audio (lines 623-647), but the final payload at
lines 650-658 references the local `optional_result`, which was never bound
because `send_api_request` (line 584) was never reached; the resulting
`NameError` is caught by the outer handler (lines 659-669), which sends
`{"error": "processing_failed"}` — the fallback reply and audio are never
reported, so the turn aborts as a whole, contradicting the claim (and the
code's own fallback intent).  The error detail below is a representative
rendering of Python's unbound-local error. -/
theorem c2_agent_failure_eats_reply :
    handlePause
      { wavWritten := true, durMs := 1000, minSpeechMs := 650,
        stt := Except.ok { langLine := "English", code := "en",
                           orig := "hello there", en := "hello there" },
        refineWithLlm := false, llmRefine := Except.ok [],
        heuristicsOf := fun _ => [], promptOf := fun s _ => s,
        agent := Except.error ("get_agent_config failed"),
        shortReplyOf := fun s => s,
        ttsConfigured := true, tts := Except.ok (some ("bW9jaw==")) }
      = [PauseEvent.transcriptionMsg "en" "English" "hello there" "hello there",
         PauseEvent.errorNotice ("name 'optional_result' is not defined")] := by
  rfl

/-! ## C9 — receive never raises -/

/-- C9 (counterexample): with the debug frame log enabled
(`RTC_RECV_LOG_EVERY=1`, line 187) a malformed frame that is not a 2-tuple
raises in the logging block (line 262), which runs *before* the `try` —
the exception propagates to the real-time caller, contradicting the claim
that `receive` never raises on malformed input. -/
theorem c9_counterexample :
    receiveModel { recvLogEvery := 1, vadCfg := defaultVadConfig }
        { recvCount := 0, sr := 48000, vad := initVadState } PyFrame.notAPair
      = Except.error ("cannot unpack non-iterable object") := by
  rfl

/-- C9 (amended): with the debug frame log disabled (the default,
`RTC_RECV_LOG_EVERY` unset), `receive` never raises: every failure inside
the processing body is caught by the `except` at lines 386-388 and the
frame is returned unmodified — and on the success paths the same frame
object is returned as well (lines 274, 327, 369, 385). -/
theorem c9_amended (cfg : RecvConfig) (st : RecvState) (f : PyFrame)
    (h : cfg.recvLogEvery = 0) :
    ∃ st2, receiveModel cfg st f = Except.ok (st2, f) := by
  rcases f with ⟨ts, pcm⟩ | _
  · rcases ts with _ | t
    · rcases pcm with _ | p
      · exact ⟨st, by simp [receiveModel, receiveTryBody, h]⟩
      · rcases p with s | m
        · exact ⟨{ st with vad := (vadStep cfg.vadCfg st.vad s).1 },
            by simp [receiveModel, receiveTryBody, h]⟩
        · exact ⟨st, by simp [receiveModel, receiveTryBody, h]⟩
    · rcases pcm with _ | p
      · exact ⟨{ st with sr := t.toNat }, by simp [receiveModel, receiveTryBody, h]⟩
      · rcases p with s | m
        · exact ⟨{ st with sr := t.toNat, vad := (vadStep cfg.vadCfg st.vad s).1 },
            by simp [receiveModel, receiveTryBody, h]⟩
        · exact ⟨st, by simp [receiveModel, receiveTryBody, h]⟩
  · exact ⟨st, by simp [receiveModel, receiveTryBody, h]⟩

/-- C9 (witness): the amended theorem at a frame whose payload makes
normalization raise; the call still returns the frame. -/
theorem c9_amended_witness :
    ∃ st2, receiveModel { recvLogEvery := 0, vadCfg := defaultVadConfig }
        { recvCount := 0, sr := 48000, vad := initVadState }
        (PyFrame.pair (some 48000) (some (PyPcm.malformed ("bad frame payload"))))
      = Except.ok (st2, PyFrame.pair (some 48000) (some (PyPcm.malformed ("bad frame payload")))) :=
  c9_amended _ _ _ rfl

/-! ## C6 — sub-threshold frames keep the detector idle -/

theorem voicedAt_eq_false (thr : ℚ) (f : List ℤ) (h0 : 0 ≤ thr)
    (h : sumSq f < thr ^ 2 * (f.length : ℚ)) :
    voicedAt thr f = false := by
  have hne : f.isEmpty = false := by
    cases f with
    | nil =>
      exfalso
      simp [sumSq] at h
    | cons a t => rfl
  have hthr : ¬ thr ≤ 0 := by
    intro hle
    have hz : thr = 0 := le_antisymm hle h0
    rw [hz] at h
    simp at h
    exact absurd h (sumSq_nonneg f).not_lt
  unfold voicedAt
  rw [hne]
  simp [hthr, decide_eq_false (not_le.mpr h)]

/-- C6: starting from the initial state, every frame sequence whose frames
all have RMS strictly below the start threshold (expressed exactly as
`sum of squares < start^2 * length`, assuming a nonnegative threshold as in
the default configuration) leaves the detector exactly in its initial
state: the phase stays IDLE and the segment buffer stays empty — frames
are discarded, not buffered (line 327). -/
theorem c6_below_start_stays_idle (cfg : VadConfig) (fs : List (List ℤ))
    (h0 : 0 ≤ cfg.rmsStart)
    (H : ∀ f ∈ fs, sumSq f < cfg.rmsStart ^ 2 * (f.length : ℚ)) :
    runFrames cfg initVadState fs = initVadState := by
  induction fs with
  | nil => rfl
  | cons f t ih =>
    have hstep := vadStep_idle_unvoiced cfg initVadState f rfl
      (voicedAt_eq_false _ _ h0 (H f (by simp)))
    calc runFrames cfg initVadState (f :: t)
        = runFrames cfg (vadStep cfg initVadState f).1 t := rfl
      _ = runFrames cfg initVadState t := by rw [hstep]
      _ = initVadState := ih (fun g hg => H g (by simp [hg]))

/-- C6 (witness): three concrete sub-threshold frames under the default
configuration (start RMS 600). -/
theorem c6_below_start_stays_idle_witness :
    runFrames defaultVadConfig initVadState [[0], [100], [599]] = initVadState :=
  c6_below_start_stays_idle defaultVadConfig [[0], [100], [599]]
    (by norm_num [defaultVadConfig])
    (by
      intro f hf
      simp only [List.mem_cons, List.not_mem_nil, or_false] at hf
      rcases hf with rfl | rfl | rfl
      all_goals norm_num [sumSq, defaultVadConfig])

/-! ## C7 — dynamic silence cutoff and cut-for-silence condition -/

/-- C7: while RECORDING the dynamic silence cutoff computed at lines
346-349 equals `clamp(0.22 * utterance_ms, min_silence_ms, max_silence_ms)`
(the product truncated to whole milliseconds as `int()` does), and the
cut-for-silence condition of lines 352-358 holds exactly when the trailing
silence is at least that cutoff and at least `end_guard_frames` times the
frame duration. -/
theorem c7_dynamic_cutoff (cfg : VadConfig) (utt sil : ℕ) :
    dynCutoff cfg utt = specDynCutoff cfg utt ∧
    (cutForSilence cfg sil utt = true ↔
      specDynCutoff cfg utt ≤ sil ∧ cfg.endGuardFrames * cfg.frameMs ≤ sil) := by
  have h022 : (0.22 : ℚ) = 22 / 100 := by norm_num
  have h1 : (0.22 : ℚ) * (utt : ℚ) = ((22 * utt : ℕ) : ℚ) / ((100 : ℕ) : ℚ) := by
    rw [h022]
    push_cast
    ring
  have hfloor : ⌊(0.22 : ℚ) * (utt : ℚ)⌋₊ = 22 * utt / 100 := by
    rw [h1, Nat.floor_div_nat, Nat.floor_natCast]
  constructor
  · simp [dynCutoff, specDynCutoff, hfloor]
  · simp [cutForSilence, dynCutoff, specDynCutoff, hfloor]

/-! ## C4 — minimum-speech rejection -/

theorem recordingStep_reject (cfg : VadConfig) (voiced : Bool) (st : VadState) (pcm : List ℤ)
    (hcut : cutForSilence cfg (if voiced then 0 else st.silenceMs + cfg.frameMs)
              (st.uttMs + cfg.frameMs) = true
            ∨ cfg.maxUttMs ≤ st.uttMs + cfg.frameMs)
    (hshort : (if voiced then st.speechMs + cfg.frameMs else st.speechMs) < cfg.minSpeechMs) :
    recordingStep cfg voiced st pcm = (rejectState cfg, VadAction.rejected) := by
  unfold recordingStep
  rcases hcut with hc | hc
  · simp [hc, hshort]
  · simp [hc, hshort]

/-- C4: a cut (for silence or length) whose accumulated speech duration is
below the minimum-speech threshold dispatches no Turn: `receive` clears
the segment buffer, zeroes all per-utterance counters and enters COOLDOWN
(lines 363-369), emitting nothing. -/
theorem c4_min_speech_rejects (cfg : VadConfig) (st : VadState) (pcm : List ℤ)
    (h : st.phase = VadPhase.recording)
    (hcut : cutForSilence cfg (if recVoiced cfg pcm then 0 else st.silenceMs + cfg.frameMs)
              (st.uttMs + cfg.frameMs) = true
            ∨ cfg.maxUttMs ≤ st.uttMs + cfg.frameMs)
    (hshort : (if recVoiced cfg pcm then st.speechMs + cfg.frameMs else st.speechMs)
                < cfg.minSpeechMs) :
    vadStep cfg st pcm
      = (rejectState cfg, { interrupt := false, action := VadAction.rejected }) := by
  rw [vadStep_recording_eq cfg st pcm h,
      recordingStep_reject cfg (recVoiced cfg pcm) st pcm hcut hshort]

/-- C4 (witness): default configuration, a recording state with 300 ms of
speech and 580 ms of trailing silence receiving one more silent frame: the
silence cut fires (600 ms ≥ cutoff 600 and ≥ 4 frames) but speech is under
650 ms, so the segment is rejected. -/
theorem c4_min_speech_rejects_witness :
    vadStep defaultVadConfig
        { phase := VadPhase.recording, cooldownLeft := 0, speechMs := 300,
          silenceMs := 580, uttMs := 900, ring := [[7]] } [0]
      = (rejectState defaultVadConfig,
         { interrupt := false, action := VadAction.rejected }) := by
  have hrv : recVoiced defaultVadConfig [0] = false := by
    have h1 : defaultVadConfig.rmsStop = 420 := rfl
    rw [recVoiced, h1, voicedAt_single 420 0 (by norm_num)]
    exact decide_eq_false (by norm_num)
  refine c4_min_speech_rejects defaultVadConfig
    { phase := VadPhase.recording, cooldownLeft := 0, speechMs := 300,
      silenceMs := 580, uttMs := 900, ring := [[7]] } [0]
    rfl (Or.inl ?_) ?_
  · rw [hrv]
    decide
  · rw [hrv]
    decide

/-! ## C5 — frames arriving during COOLDOWN -/

/-- C5 (counterexample): a frame arriving in COOLDOWN with remaining
cooldown 10 ms > 0 and energy above the start threshold *does* start
RECORDING and buffers the frame: the decrement at line 304 runs before the
IDLE branch, so `cooldown_left` drops to −10 ≤ 0, the state flips to IDLE
(lines 305-306) and the same frame is then processed as IDLE speech
(lines 308-331), contradicting the claim that frames arriving with
remaining cooldown > 0 never start RECORDING. -/
theorem c5_counterexample :
    (0 : ℤ) < ((⟨VadPhase.cooldown, 10, 0, 0, 0, []⟩ : VadState)).cooldownLeft ∧
    voicedAt defaultVadConfig.rmsStart [1000] = true ∧
    (vadStep defaultVadConfig ⟨VadPhase.cooldown, 10, 0, 0, 0, []⟩ [1000]).1.phase
      = VadPhase.recording ∧
    (vadStep defaultVadConfig ⟨VadPhase.cooldown, 10, 0, 0, 0, []⟩ [1000]).1.ring
      = [[1000]] := by
  have hv : voicedAt defaultVadConfig.rmsStart [1000] = true := by
    have h1 : defaultVadConfig.rmsStart = 600 := rfl
    rw [h1, voicedAt_single 600 1000 (by norm_num)]
    exact decide_eq_true (by norm_num)
  have hstep : vadStep defaultVadConfig ⟨VadPhase.cooldown, 10, 0, 0, 0, []⟩ [1000]
      = (⟨VadPhase.recording, -10, 20, 0, 20, [[1000]]⟩,
         { interrupt := true, action := VadAction.noCut }) := by
    rw [vadStep_cooldown_elapsed _ _ _ rfl (by norm_num [defaultVadConfig])]
    rw [vadStep_idle_voiced _ _ _ rfl hv]
    decide
  exact ⟨by decide, hv, by rw [hstep], by rw [hstep]⟩

/-- C5 (amended): a frame arriving in COOLDOWN always has the remaining
cooldown decremented by the frame duration.  If the decremented value is
still positive, the frame is fully ignored (treated as sub-threshold IDLE:
it never starts RECORDING, whatever its energy).  Once the decrement
reaches zero or below, the state transitions to IDLE and the very same
frame is immediately reprocessed as an IDLE frame — so a sufficiently
energetic frame arriving with remaining cooldown ≤ one frame duration does
start RECORDING. -/
theorem c5_amended (cfg : VadConfig) (st : VadState) (pcm : List ℤ)
    (h : st.phase = VadPhase.cooldown) :
    ((cfg.frameMs : ℤ) < st.cooldownLeft →
      vadStep cfg st pcm
        = ({ st with cooldownLeft := st.cooldownLeft - (cfg.frameMs : ℤ) },
           { interrupt := false, action := VadAction.noCut })) ∧
    (st.cooldownLeft ≤ (cfg.frameMs : ℤ) →
      vadStep cfg st pcm
        = vadStep cfg
            { st with phase := VadPhase.idle,
                      cooldownLeft := st.cooldownLeft - (cfg.frameMs : ℤ) } pcm) :=
  ⟨fun hc => vadStep_cooldown_pending cfg st pcm h hc,
   fun hc => vadStep_cooldown_elapsed cfg st pcm h hc⟩

/-- C5 (witness): the amended theorem at a cooldown state with 450 ms
remaining and a silent frame under the default configuration. -/
theorem c5_amended_witness :
    ((defaultVadConfig.frameMs : ℤ) < (450 : ℤ) →
      vadStep defaultVadConfig ⟨VadPhase.cooldown, 450, 0, 0, 0, []⟩ [0]
        = (⟨VadPhase.cooldown, 430, 0, 0, 0, []⟩,
           { interrupt := false, action := VadAction.noCut })) ∧
    ((450 : ℤ) ≤ (defaultVadConfig.frameMs : ℤ) →
      vadStep defaultVadConfig ⟨VadPhase.cooldown, 450, 0, 0, 0, []⟩ [0]
        = vadStep defaultVadConfig ⟨VadPhase.idle, 430, 0, 0, 0, []⟩ [0]) :=
  c5_amended defaultVadConfig ⟨VadPhase.cooldown, 450, 0, 0, 0, []⟩ [0] rfl

/-! ## C3 — leaving RECORDING -/

/-- C3 (amended): from RECORDING the detector only ever stays in RECORDING
or moves to COOLDOWN — never directly to IDLE — and it moves to COOLDOWN
only when the cut-for-silence condition (dynamic cutoff AND end guard)
holds for the updated counters, or the utterance duration has reached the
maximum-utterance cap (line 359): the length cap cuts even with zero
trailing silence. -/
theorem c3_amended (cfg : VadConfig) (st : VadState) (pcm : List ℤ)
    (h : st.phase = VadPhase.recording) :
    ((vadStep cfg st pcm).1.phase = VadPhase.recording ∨
     (vadStep cfg st pcm).1.phase = VadPhase.cooldown) ∧
    ((vadStep cfg st pcm).1.phase = VadPhase.cooldown →
      cutForSilence cfg (if recVoiced cfg pcm then 0 else st.silenceMs + cfg.frameMs)
          (st.uttMs + cfg.frameMs) = true
        ∨ cfg.maxUttMs ≤ st.uttMs + cfg.frameMs) := by
  rw [vadStep_recording_eq cfg st pcm h]
  by_cases hlen : cfg.maxUttMs ≤ st.uttMs + cfg.frameMs
  · by_cases hshort : (if recVoiced cfg pcm then st.speechMs + cfg.frameMs else st.speechMs)
        < cfg.minSpeechMs
    · exact ⟨Or.inr (by simp [recordingStep, hlen, hshort, rejectState]),
        fun _ => Or.inr hlen⟩
    · exact ⟨Or.inr (by simp [recordingStep, hlen, hshort]), fun _ => Or.inr hlen⟩
  · by_cases hcut : cutForSilence cfg
        (if recVoiced cfg pcm then 0 else st.silenceMs + cfg.frameMs)
        (st.uttMs + cfg.frameMs) = true
    · by_cases hshort : (if recVoiced cfg pcm then st.speechMs + cfg.frameMs else st.speechMs)
          < cfg.minSpeechMs
      · exact ⟨Or.inr (by simp [recordingStep, hcut, hshort, rejectState]),
          fun _ => Or.inl hcut⟩
      · exact ⟨Or.inr (by simp [recordingStep, hcut, hshort]), fun _ => Or.inl hcut⟩
    · have hcutf : cutForSilence cfg
          (if recVoiced cfg pcm then 0 else st.silenceMs + cfg.frameMs)
          (st.uttMs + cfg.frameMs) = false := by
        simpa using hcut
      refine ⟨Or.inl ?_, fun hc => ?_⟩
      · simp [recordingStep, hcutf, hlen, h]
      · exfalso
        simp [recordingStep, hcutf, hlen, h] at hc

/-- C3 (amended, witness): a recording state with 700 ms of speech and
580 ms of silence receiving one more silent frame under the default
configuration: the silence cut fires and the state moves to COOLDOWN. -/
theorem c3_amended_witness :
    ((vadStep defaultVadConfig
        { phase := VadPhase.recording, cooldownLeft := 0, speechMs := 700,
          silenceMs := 580, uttMs := 1280, ring := [] } [0]).1.phase = VadPhase.recording ∨
     (vadStep defaultVadConfig
        { phase := VadPhase.recording, cooldownLeft := 0, speechMs := 700,
          silenceMs := 580, uttMs := 1280, ring := [] } [0]).1.phase = VadPhase.cooldown) ∧
    ((vadStep defaultVadConfig
        { phase := VadPhase.recording, cooldownLeft := 0, speechMs := 700,
          silenceMs := 580, uttMs := 1280, ring := [] } [0]).1.phase = VadPhase.cooldown →
      cutForSilence defaultVadConfig
          (if recVoiced defaultVadConfig [0] then 0 else 580 + defaultVadConfig.frameMs)
          (1280 + defaultVadConfig.frameMs) = true
        ∨ defaultVadConfig.maxUttMs ≤ 1280 + defaultVadConfig.frameMs) :=
  c3_amended defaultVadConfig
    { phase := VadPhase.recording, cooldownLeft := 0, speechMs := 700,
      silenceMs := 580, uttMs := 1280, ring := [] } [0] rfl

/-- The stop-threshold voicing decision is true for a constant-1000 frame
under the default configuration (RMS 1000 ≥ stop 420). -/
theorem recVoiced_const1000 : recVoiced defaultVadConfig [1000] = true := by
  have h1 : defaultVadConfig.rmsStop = 420 := rfl
  rw [recVoiced, h1, voicedAt_single 420 1000 (by norm_num)]
  exact decide_eq_true (by norm_num)

/-- The start-threshold voicing decision is true for a constant-1000 frame
under the default configuration (RMS 1000 ≥ start 600). -/
theorem voicedStart_const1000 : voicedAt defaultVadConfig.rmsStart [1000] = true := by
  have h1 : defaultVadConfig.rmsStart = 600 := rfl
  rw [h1, voicedAt_single 600 1000 (by norm_num)]
  exact decide_eq_true (by norm_num)

/-- One mid-utterance voiced frame under the default configuration, before
the length cap: counters advance, the frame is appended, no cut. -/
theorem voicedStep1000 (c : ℤ) (sp ut : ℕ) (r : List (List ℤ))
    (hu : ut + 20 < 15000) (hr : ringTotal r + 1 ≤ 1440000) :
    vadStep defaultVadConfig ⟨VadPhase.recording, c, sp, 0, ut, r⟩ [1000]
      = (⟨VadPhase.recording, c, sp + 20, 0, ut + 20, r ++ [[1000]]⟩,
         { interrupt := false, action := VadAction.noCut }) := by
  rw [vadStep_recording_eq _ _ _ rfl, recVoiced_const1000]
  have hev : evictRing 1440000 (r ++ [[1000]]) = r ++ [[1000]] := by
    apply evictRing_of_le
    rw [ringTotal_append]
    have h1 : ringTotal [[1000]] = 1 := rfl
    omega
  have hcutf : cutForSilence defaultVadConfig 0 (ut + 20) = false := by
    simp [cutForSilence, dynCutoff, defaultVadConfig]
  have hlenf : ¬ (15000 ≤ ut + 20) := by omega
  simp only [recordingStep, show defaultVadConfig.frameMs = 20 from rfl,
    show defaultVadConfig.ringMaxSamples = 1440000 from rfl,
    show defaultVadConfig.maxUttMs = 15000 from rfl,
    show defaultVadConfig.minSpeechMs = 650 from rfl]
  simp [hev, hcutf, hlenf]

/-- Iterating `voicedStep1000`: `n` voiced frames advance the counters by
`20 * n` and append `n` copies of the frame, staying in RECORDING as long
as the length cap is not reached. -/
theorem voicedRun1000 (n : ℕ) : ∀ (c : ℤ) (sp ut : ℕ) (r : List (List ℤ)),
    ut + 20 * n < 15000 → ringTotal r + n ≤ 1440000 →
    runFrames defaultVadConfig ⟨VadPhase.recording, c, sp, 0, ut, r⟩ (List.replicate n [1000])
      = ⟨VadPhase.recording, c, sp + 20 * n, 0, ut + 20 * n,
          r ++ List.replicate n [1000]⟩ := by
  induction n with
  | zero =>
    intro c sp ut r hu hr
    simp [runFrames]
  | succ k ih =>
    intro c sp ut r hu hr
    have hrep : List.replicate (k + 1) ([1000] : List ℤ) = [1000] :: List.replicate k [1000] := rfl
    rw [hrep]
    have hcons : runFrames defaultVadConfig ⟨VadPhase.recording, c, sp, 0, ut, r⟩
          ([1000] :: List.replicate k [1000])
        = runFrames defaultVadConfig
            (vadStep defaultVadConfig ⟨VadPhase.recording, c, sp, 0, ut, r⟩ [1000]).1
            (List.replicate k [1000]) := rfl
    rw [hcons, voicedStep1000 c sp ut r (by omega) (by omega)]
    have hrt : ringTotal (r ++ [[1000]]) + k ≤ 1440000 := by
      rw [ringTotal_append]
      have h1 : ringTotal [[1000]] = 1 := rfl
      omega
    rw [ih c (sp + 20) (ut + 20) (r ++ [[1000]]) (by omega) hrt]
    have harith1 : sp + 20 + 20 * k = sp + 20 * (k + 1) := by omega
    have harith2 : ut + 20 + 20 * k = ut + 20 * (k + 1) := by omega
    rw [harith1, harith2, List.append_assoc]
    rfl

/-- C3 (counterexample): 750 consecutive voiced frames (RMS 1000) from the
initial state under the default configuration.  Frame 750 pushes the
utterance duration to the 15000 ms cap, so `receive` cuts for length
(line 359) and moves RECORDING → COOLDOWN dispatching the turn, while the
trailing silence is 0 — the dynamic-silence-cutoff/end-guard condition is
false at that transition, refuting the claim that the transition happens
only after both silence conditions hold. -/
theorem c3_counterexample :
    (runFrames defaultVadConfig initVadState (List.replicate 749 [1000])).phase
        = VadPhase.recording ∧
    (vadStep defaultVadConfig
        (runFrames defaultVadConfig initVadState (List.replicate 749 [1000]))
        [1000]).1.phase = VadPhase.cooldown ∧
    (vadStep defaultVadConfig
        (runFrames defaultVadConfig initVadState (List.replicate 749 [1000]))
        [1000]).2.action = VadAction.cutTurn (List.replicate 750 [1000]) ∧
    recVoiced defaultVadConfig [1000] = true ∧
    (runFrames defaultVadConfig initVadState (List.replicate 749 [1000])).silenceMs = 0 ∧
    (runFrames defaultVadConfig initVadState (List.replicate 749 [1000])).uttMs
        + defaultVadConfig.frameMs = 15000 ∧
    cutForSilence defaultVadConfig 0 15000 = false := by
  have hfirst : vadStep defaultVadConfig initVadState [1000]
      = (⟨VadPhase.recording, 0, 20, 0, 20, [[1000]]⟩,
         { interrupt := true, action := VadAction.noCut }) := by
    rw [vadStep_idle_voiced _ _ _ rfl voicedStart_const1000]
    have h2 : recordingStep defaultVadConfig true
        { initVadState with phase := VadPhase.recording, speechMs := 0, silenceMs := 0,
                            uttMs := 0, ring := [] } [1000]
        = (⟨VadPhase.recording, 0, 20, 0, 20, [[1000]]⟩, VadAction.noCut) := by
      show recordingStep defaultVadConfig true
        ⟨VadPhase.recording, 0, 0, 0, 0, []⟩ [1000] = _
      decide
    rw [h2]
  have h749 : runFrames defaultVadConfig initVadState (List.replicate 749 [1000])
      = ⟨VadPhase.recording, 0, 14980, 0, 14980, List.replicate 749 [1000]⟩ := by
    have e1 : List.replicate 749 ([1000] : List ℤ)
        = [1000] :: List.replicate 748 [1000] := rfl
    rw [e1, runFrames_cons, hfirst]
    have hrt : ringTotal [[1000]] + 748 ≤ 1440000 := by
      have h1 : ringTotal [[1000]] = 1 := rfl
      omega
    have := voicedRun1000 748 0 20 20 [[1000]] (by omega) hrt
    rw [this]
    rw [show (20 + 20 * 748 : ℕ) = 14980 from by norm_num]
    rfl
  have hev : evictRing 1440000 (List.replicate 749 ([1000] : List ℤ) ++ [[1000]])
      = List.replicate 749 [1000] ++ [[1000]] := by
    apply evictRing_of_le
    rw [ringTotal_append]
    have h1 : ringTotal (List.replicate 749 [1000]) = 749 := by
      simp only [ringTotal, List.map_replicate, List.sum_replicate, smul_eq_mul,
        List.length_cons, List.length_nil, mul_one]
    have h2 : ringTotal [[1000]] = 1 := rfl
    omega
  have happ : List.replicate 749 ([1000] : List ℤ) ++ [[1000]]
      = List.replicate 750 [1000] := by
    rw [← List.replicate_succ']
  have hlast : vadStep defaultVadConfig
      ⟨VadPhase.recording, 0, 14980, 0, 14980, List.replicate 749 [1000]⟩ [1000]
      = (⟨VadPhase.cooldown, 450, 15000, 0, 15000, List.replicate 750 [1000]⟩,
         { interrupt := false, action := VadAction.cutTurn (List.replicate 750 [1000]) }) := by
    rw [vadStep_recording_eq _ _ _ rfl, recVoiced_const1000]
    simp only [recordingStep, show defaultVadConfig.frameMs = 20 from rfl,
      show defaultVadConfig.ringMaxSamples = 1440000 from rfl,
      show defaultVadConfig.maxUttMs = 15000 from rfl,
      show defaultVadConfig.minSpeechMs = 650 from rfl,
      show defaultVadConfig.cooldownMs = 450 from rfl]
    rw [hev, happ]
    norm_num
  rw [h749, hlast]
  refine ⟨rfl, rfl, rfl, recVoiced_const1000, rfl, by decide, by decide⟩

/-! ## C10 — buffered frames, dispatched audio -/

theorem recordingStep_not_rejected (cfg : VadConfig) (voiced : Bool) (st : VadState)
    (pcm : List ℤ)
    (hact : (recordingStep cfg voiced st pcm).2 ≠ VadAction.rejected) :
    (recordingStep cfg voiced st pcm).1.ring = evictRing cfg.ringMaxSamples (st.ring ++ [pcm]) ∧
    (recordingStep cfg voiced st pcm).1.uttMs = st.uttMs + cfg.frameMs := by
  by_cases hg : (cutForSilence cfg (if voiced then 0 else st.silenceMs + cfg.frameMs)
      (st.uttMs + cfg.frameMs) || decide (cfg.maxUttMs ≤ st.uttMs + cfg.frameMs)) = true
  · by_cases hshort : (if voiced then st.speechMs + cfg.frameMs else st.speechMs)
        < cfg.minSpeechMs
    · exfalso
      apply hact
      simp [recordingStep, hg, hshort]
    · constructor
      · simp [recordingStep, hg, hshort]
      · simp [recordingStep, hg, hshort]
  · have hg2 : (cutForSilence cfg (if voiced then 0 else st.silenceMs + cfg.frameMs)
        (st.uttMs + cfg.frameMs) || decide (cfg.maxUttMs ≤ st.uttMs + cfg.frameMs)) = false := by
      simpa using hg
    constructor
    · simp [recordingStep, hg2]
    · simp [recordingStep, hg2]

theorem recordingStep_rejected (cfg : VadConfig) (voiced : Bool) (st : VadState)
    (pcm : List ℤ)
    (hact : (recordingStep cfg voiced st pcm).2 = VadAction.rejected) :
    (recordingStep cfg voiced st pcm).1 = rejectState cfg := by
  by_cases hg : (cutForSilence cfg (if voiced then 0 else st.silenceMs + cfg.frameMs)
      (st.uttMs + cfg.frameMs) || decide (cfg.maxUttMs ≤ st.uttMs + cfg.frameMs)) = true
  · by_cases hshort : (if voiced then st.speechMs + cfg.frameMs else st.speechMs)
        < cfg.minSpeechMs
    · simp [recordingStep, hg, hshort]
    · exfalso
      simp [recordingStep, hg, hshort] at hact
  · have hg2 : (cutForSilence cfg (if voiced then 0 else st.silenceMs + cfg.frameMs)
        (st.uttMs + cfg.frameMs) || decide (cfg.maxUttMs ≤ st.uttMs + cfg.frameMs)) = false := by
      simpa using hg
    exfalso
    simp [recordingStep, hg2] at hact

theorem runFrames_concat (cfg : VadConfig) (st : VadState) (l : List (List ℤ)) (a : List ℤ) :
    runFrames cfg st (l ++ [a]) = (vadStep cfg (runFrames cfg st l) a).1 := by
  simp [runFrames, List.foldl_append]

theorem c10_run_aux (cfg : VadConfig) (fs : List (List ℤ)) :
    (∀ k, k < fs.length → (runFrames cfg recStart (fs.take k)).phase = VadPhase.recording) →
    ringTotal fs ≤ cfg.ringMaxSamples →
    (runFrames cfg recStart fs).ring = fs ∧
      (runFrames cfg recStart fs).uttMs = fs.length * cfg.frameMs
    ∨ runFrames cfg recStart fs = rejectState cfg := by
  induction fs using List.reverseRecOn with
  | nil =>
    intro _ _
    left
    exact ⟨rfl, by simp [runFrames, recStart]⟩
  | append_singleton gs g ih =>
    intro Hrec Hcap
    have hgsrec : (runFrames cfg recStart gs).phase = VadPhase.recording := by
      have h := Hrec gs.length (by simp)
      rwa [List.take_left] at h
    have hcap2 : ringTotal gs ≤ cfg.ringMaxSamples := by
      rw [ringTotal_append] at Hcap
      omega
    have ihh := ih (fun k hk => by
      have hk2 : k ≤ gs.length := Nat.le_of_lt hk
      have h := Hrec k (by simp; omega)
      rwa [List.take_append_of_le_length hk2] at h) hcap2
    rcases ihh with ⟨hring, hutt⟩ | hrej
    · rw [runFrames_concat, vadStep_recording_eq _ _ _ hgsrec]
      by_cases hact : (recordingStep cfg (recVoiced cfg g) (runFrames cfg recStart gs) g).2
          = VadAction.rejected
      · right
        simpa using recordingStep_rejected _ _ _ _ hact
      · left
        obtain ⟨hr1, hr2⟩ := recordingStep_not_rejected _ _ _ _ hact
        constructor
        · dsimp only
          rw [hr1, hring]
          exact evictRing_of_le _ _ Hcap
        · dsimp only
          rw [hr2, hutt, List.length_append]
          simp
          ring
    · rw [hrej] at hgsrec
      exact absurd hgsrec (by simp [rejectState])

theorem flatten_length_of_const (L : ℕ) (fs : List (List ℤ))
    (H : ∀ f ∈ fs, f.length = L) : fs.flatten.length = fs.length * L := by
  induction fs with
  | nil => simp
  | cons a t ih =>
    have ha : a.length = L := H a (by simp)
    have ht := ih (fun f hf => H f (by simp [hf]))
    simp [ha, ht]
    ring

/-- C10: every frame processed while RECORDING is appended to the segment
buffer regardless of its energy (line 331), so at a cut that is not a
minimum-speech rejection the buffer holds exactly the utterance's frames
in arrival order: starting an utterance from the post-reset RECORDING
state, as long as every prefix left the detector in RECORDING and the ring
cap is not reached, the buffer equals the full frame list (speech and
trailing silence frames alike) and the utterance counter equals
`frames × frame_ms`; `_write_wav_from_ring` then concatenates exactly
those samples in order, so the dispatched audio spans the whole utterance
duration (`frames × L` samples), not just the accumulated speech time. -/
theorem c10_recorded_frames (cfg : VadConfig) (L : ℕ) (fs : List (List ℤ))
    (Hrec : ∀ k, k < fs.length → (runFrames cfg recStart (fs.take k)).phase = VadPhase.recording)
    (Hcap : ringTotal fs ≤ cfg.ringMaxSamples)
    (Hlen : ∀ f ∈ fs, f.length = L) :
    (∀ (st : VadState) (pcm : List ℤ), st.phase = VadPhase.recording →
      (vadStep cfg st pcm).2.action ≠ VadAction.rejected →
      (vadStep cfg st pcm).1.ring = evictRing cfg.ringMaxSamples (st.ring ++ [pcm]) ∧
      (vadStep cfg st pcm).1.uttMs = st.uttMs + cfg.frameMs) ∧
    ((runFrames cfg recStart fs).ring = fs ∧
       (runFrames cfg recStart fs).uttMs = fs.length * cfg.frameMs
     ∨ runFrames cfg recStart fs = rejectState cfg) ∧
    fs.flatten.length = fs.length * L ∧
    (fs ≠ [] → writeWavFromRing fs = some fs.flatten) := by
  refine ⟨?_, c10_run_aux cfg fs Hrec Hcap, flatten_length_of_const L fs Hlen, ?_⟩
  · intro st pcm h hact
    rw [vadStep_recording_eq _ _ _ h] at hact ⊢
    have h2 := recordingStep_not_rejected cfg (recVoiced cfg pcm) st pcm (by simpa using hact)
    simpa using h2
  · intro hne
    cases fs with
    | nil => exact absurd rfl hne
    | cons a t => rfl

/-- C10 (witness): a two-frame utterance of single-sample voiced frames
under the default configuration. -/
theorem c10_recorded_frames_witness :
    (∀ (st : VadState) (pcm : List ℤ), st.phase = VadPhase.recording →
      (vadStep defaultVadConfig st pcm).2.action ≠ VadAction.rejected →
      (vadStep defaultVadConfig st pcm).1.ring
          = evictRing defaultVadConfig.ringMaxSamples (st.ring ++ [pcm]) ∧
      (vadStep defaultVadConfig st pcm).1.uttMs = st.uttMs + defaultVadConfig.frameMs) ∧
    ((runFrames defaultVadConfig recStart [[1000], [1000]]).ring = [[1000], [1000]] ∧
       (runFrames defaultVadConfig recStart [[1000], [1000]]).uttMs
         = ([[1000], [1000]] : List (List ℤ)).length * defaultVadConfig.frameMs
     ∨ runFrames defaultVadConfig recStart [[1000], [1000]] = rejectState defaultVadConfig) ∧
    ([[1000], [1000]] : List (List ℤ)).flatten.length
      = ([[1000], [1000]] : List (List ℤ)).length * 1 ∧
    (([[1000], [1000]] : List (List ℤ)) ≠ [] →
      writeWavFromRing [[1000], [1000]]
        = some ([[1000], [1000]] : List (List ℤ)).flatten) :=
  c10_recorded_frames defaultVadConfig 1 [[1000], [1000]]
    (by
      intro k hk
      simp only [List.length_cons, List.length_nil] at hk
      interval_cases k
      · rfl
      · show (runFrames defaultVadConfig recStart [[1000]]).phase = VadPhase.recording
        rw [runFrames_cons]
        rw [show recStart = (⟨VadPhase.recording, 0, 0, 0, 0, []⟩ : VadState) from rfl]
        rw [voicedStep1000 0 0 0 [] (by omega) (by
          have h1 : ringTotal ([] : List (List ℤ)) = 0 := rfl
          omega)]
        rfl)
    (by
      have h1 : ringTotal [[1000], [1000]] = 2 := rfl
      have h2 : defaultVadConfig.ringMaxSamples = 1440000 := rfl
      omega)
    (by
      intro f hf
      simp only [List.mem_cons, List.not_mem_nil, or_false] at hf
      rcases hf with rfl | rfl
      · rfl
      · rfl)

/-! ## C8 — denoiser mask floor and output energy -/

theorem hanning_two : hanning 2 = [0, 0] := by
  unfold hanning
  rw [if_neg (by norm_num)]
  simp only [List.ofFn_succ, List.ofFn_zero, Fin.val_zero, Fin.val_succ, Fin.val_eq_zero]
  norm_num [Real.cos_two_pi]

theorem windowedFrame_default_zero :
    windowedFrame (defaultDenoiser 100 20) [10000, 10000] = [0, 0] := by
  have hwin : (defaultDenoiser 100 20).win = [0, 0] := by
    show hanning (100 * 20 / 1000) = [0, 0]
    rw [show (100 * 20 / 1000 : ℕ) = 2 from rfl]
    exact hanning_two
  unfold windowedFrame
  rw [hwin]
  simp [hpLoop, preEmphList]

theorem spectrumOf_default_zero :
    spectrumOf (defaultDenoiser 100 20) [10000, 10000] = [0, 0] := by
  unfold spectrumOf
  rw [windowedFrame_default_zero, show (defaultDenoiser 100 20).N = 2 from rfl]
  unfold rfftBins
  simp [Finset.sum_range_succ, List.ofFn_succ]

theorem maskedSpec_default_zero :
    maskedSpec (defaultDenoiser 100 20) [10000, 10000] = [0, 0] := by
  unfold maskedSpec maskOf psdOf
  rw [spectrumOf_default_zero]
  simp [psdFloorUpdated, show (defaultDenoiser 100 20).psdFloor = none from rfl]

theorem irfft_two_zero : irfft [0, 0] 2 = [0, 0] := by
  unfold irfft fullSpec
  simp [Finset.sum_range_succ, List.ofFn_succ]

theorem deEmph_two_zero (a : ℝ) : deEmphList a 0 [0, 0] = [0, 0] := by
  simp [deEmphList]

theorem limiter_two_zero : limiter (1 / 100000000) [0, 0] = [0, 0] := by
  unfold limiter
  norm_num

theorem quantize16_two_zero : quantize16 [0, 0] = [0, 0] := by
  unfold quantize16 trunc16
  norm_num

/-- The full pipeline annihilates the constant frame at `N = 2`: the Hann
window is identically zero there, so the spectrum, the masked spectrum and
the reconstructed, de-emphasised, limited and quantised output are all
zero. -/
theorem process_default_output_zero :
    (process20msInt16 (defaultDenoiser 100 20) [10000, 10000]).2 = [0, 0] := by
  unfold process20msInt16
  simp only []
  rw [maskedSpec_default_zero, show (defaultDenoiser 100 20).N = 2 from rfl,
    irfft_two_zero, deEmph_two_zero,
    show (defaultDenoiser 100 20).eps = 1 / 100000000 from rfl,
    limiter_two_zero, quantize16_two_zero]

/-- C8 (counterexample): the claimed end-to-end energy bound
`output energy ≥ input energy × linear floor` fails.  Constructing the
denoiser with `sr = 100, frame_ms = 20` gives `N = 2`, where `np.hanning`
is the all-zero window; a constant full-level frame is annihilated by the
windowing (line 109), so the output energy is 0 while
`atten_lin × input energy > 0`.  The window, high-pass and limiter sit
outside the mask's floor, so the floor does not bound the output energy. -/
theorem c8_counterexample :
    ¬ ((defaultDenoiser 100 20).attenLin * energyOf [10000, 10000]
        ≤ energyOf (process20msInt16 (defaultDenoiser 100 20) [10000, 10000]).2) := by
  rw [process_default_output_zero]
  have h1 : energyOf [0, 0] = 0 := by norm_num [energyOf]
  have h2 : energyOf [10000, 10000] = 200000000 := by norm_num [energyOf]
  have h3 : 0 < (defaultDenoiser 100 20).attenLin := by
    show 0 < Real.rpow 10 (-(18 : ℝ) / 20)
    exact Real.rpow_pos_of_pos (by norm_num) _
  rw [h1, h2]
  intro hle
  nlinarith

/-- C8 (amended): the spectral mask is floored at the configured linear
attenuation `atten_lin` (line 139), so per bin the mask never drops below
the floor and each masked spectral bin has magnitude at least
`atten_lin ×` the corresponding unmasked bin magnitude — the signal is
never fully muted in the spectral domain.  The end-to-end output-energy
bound does not hold (see the counterexample): windowing, the high-pass
filter and the limiter all sit outside the mask floor. -/
theorem zipWith_mask_mem_ge (fb relax atten epsv : ℝ) :
    ∀ (l1 l2 : List ℝ), ∀ m ∈ List.zipWith
      (fun p f =>
        max (Real.rpow ((p / (fb * (f + epsv) + epsv)) /
              (p / (fb * (f + epsv) + epsv) + 1)) relax) atten) l1 l2,
      atten ≤ m := by
  intro l1
  induction l1 with
  | nil =>
    intro l2 m hm
    simp at hm
  | cons a t ih =>
    intro l2 m hm
    cases l2 with
    | nil => simp at hm
    | cons b u =>
      simp only [List.zipWith_cons_cons, List.mem_cons] at hm
      rcases hm with rfl | hm
      · exact le_max_right _ _
      · exact ih u m hm

theorem maskOf_mem_ge (st : SimpleDenoiser) (pcm : List ℤ) :
    ∀ m ∈ maskOf st pcm, st.attenLin ≤ m := by
  intro m hm
  exact zipWith_mask_mem_ge st.floorBoost st.maskRelax st.attenLin st.eps
    (psdOf st pcm) (psdFloorUpdated st (psdOf st pcm)) m (by simpa [maskOf] using hm)

theorem c8_amended (st : SimpleDenoiser) (pcm : List ℤ) (k : ℕ)
    (hk : k < (maskOf st pcm).length) :
    st.attenLin ≤ (maskOf st pcm).get ⟨k, hk⟩ ∧
    st.attenLin * Complex.abs ((spectrumOf st pcm).getD k 0)
      ≤ Complex.abs ((maskedSpec st pcm).getD k 0) := by
  have hmlen : (maskOf st pcm).length
      = min (psdOf st pcm).length (psdFloorUpdated st (psdOf st pcm)).length := by
    simp [maskOf, List.length_zipWith]
  have hpsd_spec : (psdOf st pcm).length = (spectrumOf st pcm).length := by
    simp [psdOf]
  have hk_spec : k < (spectrumOf st pcm).length := by
    rw [hmlen] at hk
    omega
  have hk_masked : k < (maskedSpec st pcm).length := by
    have hml : (maskedSpec st pcm).length
        = min (spectrumOf st pcm).length (maskOf st pcm).length := by
      simp [maskedSpec, List.length_zipWith]
    omega
  have hfloor : st.attenLin ≤ (maskOf st pcm).get ⟨k, hk⟩ :=
    maskOf_mem_ge st pcm _ (List.get_mem _ _ _)
  refine ⟨hfloor, ?_⟩
  have hfloorD : st.attenLin ≤ (maskOf st pcm).getD k 0 := by
    rw [List.getD_eq_getElem _ _ hk]
    exact maskOf_mem_ge st pcm _ (List.getElem_mem _)
  have hmasked_get : (maskedSpec st pcm).getD k 0
      = (spectrumOf st pcm).getD k 0 * (((maskOf st pcm).getD k 0 : ℝ) : ℂ) := by
    rw [List.getD_eq_getElem _ _ hk_masked, List.getD_eq_getElem _ _ hk_spec,
      List.getD_eq_getElem _ _ hk]
    simp only [maskedSpec]
    rw [List.getElem_zipWith]
  rw [hmasked_get, map_mul, Complex.abs_ofReal]
  have habs : st.attenLin ≤ |(maskOf st pcm).getD k 0| :=
    le_trans hfloorD (le_abs_self _)
  calc st.attenLin * Complex.abs ((spectrumOf st pcm).getD k 0)
      ≤ |(maskOf st pcm).getD k 0| * Complex.abs ((spectrumOf st pcm).getD k 0) :=
        mul_le_mul_of_nonneg_right habs (AbsoluteValue.nonneg _ _)
    _ = Complex.abs ((spectrumOf st pcm).getD k 0) * |(maskOf st pcm).getD k 0| :=
        mul_comm _ _

/-- C8 (witness): the amended theorem at the concrete two-bin state and a
concrete frame, bin 0. -/
theorem c8_amended_witness :
    st0Denoiser.attenLin * Complex.abs ((spectrumOf st0Denoiser [5, 7]).getD 0 0)
      ≤ Complex.abs ((maskedSpec st0Denoiser [5, 7]).getD 0 0) :=
  (c8_amended st0Denoiser [5, 7] 0 (by
    simp [maskOf, psdOf, psdFloorUpdated, spectrumOf, rfftBins, st0Denoiser,
      List.length_zipWith])).2

end RIA

